import Mathlib

/-!
Verification of the RTP/RTSP transport-description layer of ZLMediaKit
(`src/Rtsp/Rtsp.cpp`): the RTP header codec, the RTP/RTCP byte-level
classifier, the SDP parser and serializer, the payload-type table lookup,
and the port-pair pool.

Buffers are modelled as `List Nat` of byte values; machine arithmetic that
can wrap (the `size_t`/`ssize_t` computation in `getPayloadSize`) is made
explicit modulo `2 ^ 64`.
-/

namespace ZLM

/-! ## RTP header view

The bit layout of `RtpHeader` is declared in `Rtsp.h` (not part of this
source unit). Modelled from the spec: byte 0 holds version (2 bits),
padding flag (1 bit), extension flag (1 bit), csrc count (4 bits) from the
most significant bit down; byte 1 holds marker (1 bit) and payload type
(7 bits); the fixed header is 12 bytes and `payload` is the member at
offset 12. -/

/-- Byte `i` of a buffer; out-of-range reads yield 0. -/
def byteAt (buf : List Nat) (i : Nat) : Nat :=
  buf.getD i 0

/-- Modelled from the spec: 2-bit version field of byte 0. -/
def rtpVersion (buf : List Nat) : Nat :=
  (byteAt buf 0 >>> 6) &&& 3

/-- Modelled from the spec: 1-bit padding flag of byte 0. -/
def rtpPadding (buf : List Nat) : Nat :=
  (byteAt buf 0 >>> 5) &&& 1

/-- Modelled from the spec: 1-bit extension flag of byte 0. -/
def rtpExt (buf : List Nat) : Nat :=
  (byteAt buf 0 >>> 4) &&& 1

/-- Modelled from the spec: 4-bit csrc count of byte 0. -/
def rtpCsrc (buf : List Nat) : Nat :=
  byteAt buf 0 &&& 15

/-- Modelled from the spec: 7-bit payload-type field of byte 1. -/
def rtpPt (buf : List Nat) : Nat :=
  byteAt buf 1 &&& 127

/-- Modelled from the spec (`RtpPacket::kRtpHeaderSize` in `Rtsp.h`):
the fixed RTP header is 12 bytes. -/
def kRtpHeaderSize : Nat := 12

/-- Modelled from the spec (`RtpPacket::kRtpVersion` in `Rtsp.h`):
the expected RTP version field value. -/
def kRtpVersion : Nat := 2

/-- `AV_RB16`: big-endian 16-bit read at byte offset `i`. -/
def AV_RB16 (buf : List Nat) (i : Nat) : Nat :=
  (byteAt buf i <<< 8) ||| byteAt buf (i + 1)

/-- `RtpHeader::getCsrcSize`: each csrc occupies 4 bytes. -/
def getCsrcSize (buf : List Nat) : Nat :=
  rtpCsrc buf <<< 2

/-- `RtpHeader::getExtSize`: 0 when the extension flag is clear, else the
big-endian 16-bit word count at `&payload + csrcSize + 2`, times 4.
`&payload` is struct offset 12. -/
def getExtSize (buf : List Nat) : Nat :=
  if rtpExt buf = 0 then 0
  else AV_RB16 buf (12 + getCsrcSize buf + 2) <<< 2

/-- `RtpHeader::getPayloadOffset`: csrc bytes, plus (when the extension
flag is set) the 4-byte ext sub-header and the ext body. -/
def getPayloadOffset (buf : List Nat) : Nat :=
  getCsrcSize buf + (if rtpExt buf ≠ 0 then 4 + getExtSize buf else 0)

/-- `RtpHeader::getPaddingSize`: 0 when the padding flag is clear, else
the last byte of the buffer. -/
def getPaddingSize (buf : List Nat) (rtp_size : Nat) : Nat :=
  if rtpPadding buf = 0 then 0 else byteAt buf (rtp_size - 1)

/-- Conversion of the 64-bit unsigned subtraction result back to `ssize_t`
(two's complement). -/
def toSsize (n : Int) : Int :=
  if n % (2 ^ 64 : Int) < 2 ^ 63 then n % (2 ^ 64 : Int)
  else n % (2 ^ 64 : Int) - 2 ^ 64

/-- `RtpHeader::getPayloadSize`: `(ssize_t)rtp_size - invalid_size -
kRtpHeaderSize`, computed in `size_t` arithmetic modulo `2 ^ 64` and
reinterpreted as a signed value. -/
def getPayloadSize (buf : List Nat) (rtp_size : Nat) : Int :=
  toSsize ((rtp_size : Int) - (getPayloadOffset buf + getPaddingSize buf rtp_size : Nat)
    - (kRtpHeaderSize : Nat))

/-- `isRtp`: false for buffers shorter than 2 bytes; otherwise payload
type outside `[64, 96)` and version equal to the expected RTP version. -/
def isRtp (buf : List Nat) : Bool :=
  if buf.length < 2 then false
  else ((rtpPt buf < 64) || (rtpPt buf ≥ 96)) && (rtpVersion buf == kRtpVersion)

/-- `isRtcp`: false for buffers shorter than 2 bytes; otherwise payload
type in `[64, 96)`, with no version check. -/
def isRtcp (buf : List Nat) : Bool :=
  if buf.length < 2 then false
  else (rtpPt buf ≥ 64) && (rtpPt buf < 96)

lemma byteAt_lt : ∀ (buf : List Nat) (i : Nat), (∀ b ∈ buf, b < 256) → byteAt buf i < 256
  | [], _, _ => by simp [byteAt]
  | b :: _, 0, h => h b (by simp)
  | _ :: bs, i + 1, h => by
    have := byteAt_lt bs i (fun x hx => h x (by simp [hx]))
    simpa [byteAt] using this

lemma getCsrcSize_le (buf : List Nat) : getCsrcSize buf ≤ 60 := by
  unfold getCsrcSize rtpCsrc
  have : byteAt buf 0 &&& 15 ≤ 15 := Nat.and_le_right
  omega

lemma AV_RB16_lt (buf : List Nat) (i : Nat) (h : ∀ b ∈ buf, b < 256) :
    AV_RB16 buf i < 65536 := by
  unfold AV_RB16
  have h1 := byteAt_lt buf i h
  have h2 := byteAt_lt buf (i + 1) h
  have e : byteAt buf i <<< 8 = byteAt buf i * 256 := by
    rw [Nat.shiftLeft_eq]
  have h8 : byteAt buf i <<< 8 < 2 ^ 16 := by omega
  have h9 : byteAt buf (i + 1) < 2 ^ 16 := by omega
  have hor := Nat.or_lt_two_pow h8 h9
  omega

lemma getExtSize_lt (buf : List Nat) (h : ∀ b ∈ buf, b < 256) :
    getExtSize buf < 262144 := by
  unfold getExtSize
  split
  · omega
  · have := AV_RB16_lt buf (12 + getCsrcSize buf + 2) h
    have : AV_RB16 buf (12 + getCsrcSize buf + 2) <<< 2
        = AV_RB16 buf (12 + getCsrcSize buf + 2) * 4 := Nat.shiftLeft_eq _ 2
    omega

lemma getPayloadOffset_lt (buf : List Nat) (h : ∀ b ∈ buf, b < 256) :
    getPayloadOffset buf < 262208 := by
  unfold getPayloadOffset
  have h1 := getCsrcSize_le buf
  have h2 := getExtSize_lt buf h
  split <;> omega

lemma toSsize_eq (n : Int) (h1 : -(2 ^ 63) ≤ n) (h2 : n < 2 ^ 63) : toSsize n = n := by
  unfold toSsize
  split <;> omega

lemma getPaddingSize_lt (buf : List Nat) (rtp_size : Nat) (h : ∀ b ∈ buf, b < 256) :
    getPaddingSize buf rtp_size < 256 := by
  unfold getPaddingSize
  split
  · omega
  · exact byteAt_lt buf _ h

/-- C1: for every byte buffer of total size `rtp_size` (after stripping any
TCP-interleaved prefix), `getPayloadOffset + getPaddingSize + 12 +
getPayloadSize = rtp_size`, and `getPayloadSize` is exactly the signed
value `rtp_size - offset - padding - 12`, returned as-is (negative for a
malformed/truncated header, never clamped to zero). -/
theorem rtp_payload_size_accounting (buf : List Nat) (rtp_size : Nat)
    (hbytes : ∀ b ∈ buf, b < 256) (hsz : rtp_size < 2 ^ 63) :
    getPayloadSize buf rtp_size
      = (rtp_size : Int) - getPayloadOffset buf - getPaddingSize buf rtp_size - 12
    ∧ (getPayloadOffset buf : Int) + getPaddingSize buf rtp_size + 12
        + getPayloadSize buf rtp_size = rtp_size := by
  have hoff := getPayloadOffset_lt buf hbytes
  have hpad := getPaddingSize_lt buf rtp_size hbytes
  have heq : getPayloadSize buf rtp_size
      = (rtp_size : Int) - getPayloadOffset buf - getPaddingSize buf rtp_size - 12 := by
    unfold getPayloadSize kRtpHeaderSize
    rw [toSsize_eq]
    · push_cast
      ring
    · push_cast
      omega
    · push_cast
      omega
  exact ⟨heq, by rw [heq]; ring⟩

/-- C1 witness: the accounting identity at a concrete 13-byte packet with
the padding flag set. -/
theorem rtp_payload_size_accounting_witness :
    (∀ b ∈ [160, 96, 0, 1, 0, 0, 0, 0, 0, 0, 0, 0, 1], b < 256)
    ∧ ((13 : Nat) < 2 ^ 63)
    ∧ (getPayloadSize [160, 96, 0, 1, 0, 0, 0, 0, 0, 0, 0, 0, 1] 13
        = (13 : Int) - getPayloadOffset [160, 96, 0, 1, 0, 0, 0, 0, 0, 0, 0, 0, 1]
          - getPaddingSize [160, 96, 0, 1, 0, 0, 0, 0, 0, 0, 0, 0, 1] 13 - 12
      ∧ (getPayloadOffset [160, 96, 0, 1, 0, 0, 0, 0, 0, 0, 0, 0, 1] : Int)
          + getPaddingSize [160, 96, 0, 1, 0, 0, 0, 0, 0, 0, 0, 0, 1] 13 + 12
          + getPayloadSize [160, 96, 0, 1, 0, 0, 0, 0, 0, 0, 0, 0, 1] 13 = 13) :=
  ⟨by decide, by decide,
    rtp_payload_size_accounting [160, 96, 0, 1, 0, 0, 0, 0, 0, 0, 0, 0, 1] 13
      (by decide) (by decide)⟩

/-- C2: `isRtp` and `isRtcp` are never both true; for buffers of at least
2 bytes, `isRtcp` holds iff the 7-bit payload type lies in `[64, 96)`
(no version check) and `isRtp` holds iff the payload type is outside
`[64, 96)` and the 2-bit version equals the expected RTP version; both
return false for buffers shorter than 2 bytes. -/
theorem rtp_rtcp_classifier (buf : List Nat) :
    ¬(isRtp buf = true ∧ isRtcp buf = true)
    ∧ (2 ≤ buf.length →
        (isRtcp buf = true ↔ 64 ≤ rtpPt buf ∧ rtpPt buf < 96))
    ∧ (2 ≤ buf.length →
        (isRtp buf = true ↔
          (rtpPt buf < 64 ∨ 96 ≤ rtpPt buf) ∧ rtpVersion buf = kRtpVersion))
    ∧ (buf.length < 2 → isRtp buf = false ∧ isRtcp buf = false) := by
  refine ⟨?_, ?_, ?_, ?_⟩
  · rintro ⟨h1, h2⟩
    unfold isRtp at h1
    unfold isRtcp at h2
    by_cases h : buf.length < 2
    · simp [h] at h1
    · simp [h] at h1 h2
      omega
  · intro hlen
    have h : ¬ buf.length < 2 := by omega
    unfold isRtcp
    simp [h]
  · intro hlen
    have h : ¬ buf.length < 2 := by omega
    unfold isRtp
    simp [h, kRtpVersion]
  · intro hlen
    unfold isRtp isRtcp
    simp [hlen]

/-- C2 witness: a 2-byte buffer with version 2 and payload type 96 is
classified as RTP and not as RTCP. -/
theorem rtp_rtcp_classifier_witness :
    isRtp [128, 96] = true ∧ isRtcp [128, 96] = false :=
  ⟨((rtp_rtcp_classifier [128, 96]).2.2.1 (by decide)).mpr (by decide), by decide⟩

/-! ## A model of the `sscanf` patterns used by the SDP parser

`SdpParser::load` and the rtpmap/fmtp post-processing use `sscanf` with
the format strings `"%d"`, `"%d %15[^/]/%d/%d"`, `"%d %15[^/]/%d"`,
`" %15[^ ] %d %15[^ ] %d"` and `" %15[^ ] %d/%d %15[^ ] %d"`. The model
below follows C `sscanf` semantics: `%d` skips leading whitespace and
needs at least one digit, a `[...]` charset conversion does not skip
whitespace and needs at least one matching character (here bounded by the
field width 15), a space in the format skips any amount of whitespace,
and a literal character must match exactly. A pattern function returns
`some` exactly when every conversion of the format succeeded (the source
compares the `sscanf` return value against the full conversion count). -/

/-- C `isspace`. -/
def isCSpace (c : Char) : Bool :=
  c = ' ' || c = '\t' || c = '\n' || c = '\x0b' || c = '\x0c' || c = '\r'

/-- Skip a (possibly empty) run of whitespace: the effect of a space
directive in a scanf format. -/
def skipCSpaces : List Char → List Char
  | [] => []
  | c :: cs => if isCSpace c then skipCSpaces cs else c :: cs

/-- Accumulate a run of decimal digits. -/
def digitsAux (acc : Nat) : List Char → Nat × List Char
  | [] => (acc, [])
  | c :: cs => if c.isDigit then digitsAux (acc * 10 + (c.toNat - 48)) cs else (acc, c :: cs)

/-- Parse one or more decimal digits. -/
def scanUDigits : List Char → Option (Nat × List Char)
  | [] => none
  | c :: cs => if c.isDigit then some (digitsAux (c.toNat - 48) cs) else none

/-- The `%d` conversion: skip whitespace, optional sign, at least one
digit. -/
def scanInt (s : List Char) : Option (Int × List Char) :=
  match skipCSpaces s with
  | '-' :: rest => (scanUDigits rest).map (fun p => (-(p.1 : Int), p.2))
  | '+' :: rest => (scanUDigits rest).map (fun p => ((p.1 : Int), p.2))
  | rest => (scanUDigits rest).map (fun p => ((p.1 : Int), p.2))

/-- Take up to `width` characters satisfying `p`. -/
def takeWidth : Nat → (Char → Bool) → List Char → List Char × List Char
  | 0, _, s => ([], s)
  | _ + 1, _, [] => ([], [])
  | w + 1, p, c :: cs =>
    if p c then
      let t := takeWidth w p cs
      (c :: t.1, t.2)
    else ([], c :: cs)

/-- A `%15[...]` conversion: up to `width` characters satisfying `p`,
at least one required, no whitespace skip. -/
def scanCharset (width : Nat) (p : Char → Bool) (s : List Char) :
    Option (String × List Char) :=
  let t := takeWidth width p s
  if t.1.isEmpty then none else some (String.mk t.1, t.2)

/-- A literal (non-whitespace) character in a scanf format. -/
def scanLit (c : Char) : List Char → Option (List Char)
  | [] => none
  | x :: xs => if x = c then some xs else none

/-- The leading `sscanf(s, "%d", &pt)` of the rtpmap/fmtp loops. -/
def scanLeadingInt (s : String) : Option Int :=
  (scanInt s.toList).map (·.1)

/-- The rtpmap pattern `"%d %15[^/]/%d/%d"` (pt, codec, rate, channels). -/
def scanRtpmap4 (s : String) : Option (Int × String × Int × Int) := do
  let (pt, r1) ← scanInt s.toList
  let (codec, r2) ← scanCharset 15 (fun c => c ≠ '/') (skipCSpaces r1)
  let r3 ← scanLit '/' r2
  let (samplerate, r4) ← scanInt r3
  let r5 ← scanLit '/' r4
  let (channel, _) ← scanInt r5
  pure (pt, codec, samplerate, channel)

/-- The rtpmap pattern `"%d %15[^/]/%d"` (pt, codec, rate). -/
def scanRtpmap3 (s : String) : Option (Int × String × Int) := do
  let (pt, r1) ← scanInt s.toList
  let (codec, r2) ← scanCharset 15 (fun c => c ≠ '/') (skipCSpaces r1)
  let r3 ← scanLit '/' r2
  let (samplerate, _) ← scanInt r3
  pure (pt, codec, samplerate)

/-- The media-line pattern `" %15[^ ] %d %15[^ ] %d"`
(type, port, proto, pt). -/
def scanMedia4 (s : String) : Option (String × Int × String × Int) := do
  let (ty, r1) ← scanCharset 15 (fun c => c ≠ ' ') (skipCSpaces s.toList)
  let (port, r2) ← scanInt r1
  let (proto, r3) ← scanCharset 15 (fun c => c ≠ ' ') (skipCSpaces r2)
  let (pt, _) ← scanInt r3
  pure (ty, port, proto, pt)

/-- The media-line pattern `" %15[^ ] %d/%d %15[^ ] %d"`
(type, port, port count, proto, pt). -/
def scanMedia5 (s : String) : Option (String × Int × Int × String × Int) := do
  let (ty, r1) ← scanCharset 15 (fun c => c ≠ ' ') (skipCSpaces s.toList)
  let (port, r2) ← scanInt r1
  let r3 ← scanLit '/' r2
  let (port_count, r4) ← scanInt r3
  let (proto, r5) ← scanCharset 15 (fun c => c ≠ ' ') (skipCSpaces r4)
  let (pt, _) ← scanInt r5
  pure (ty, port, port_count, proto, pt)

/-- Split a character list at the first occurrence of `delim`; `none` if
`delim` does not occur. -/
def strBreak (delim : Char) : List Char → Option (List Char × List Char)
  | [] => none
  | c :: cs =>
    if c = delim then some ([], cs)
    else (strBreak delim cs).map (fun p => (c :: p.1, p.2))

/-- Modelled from the spec: `findSubString(buf, nullptr, delim)` from the
toolkit (not part of this source unit) — the text before the first
occurrence of `delim`, or the empty string when `delim` is absent. -/
def findSubStringTo (delim : Char) (s : String) : String :=
  match strBreak delim s.toList with
  | none => ""
  | some p => String.mk p.1

/-- Modelled from the spec: `findSubString(buf, delim, nullptr)` from the
toolkit — the text after the first occurrence of `delim`, or the empty
string when `delim` is absent. -/
def findSubStringFrom (delim : Char) (s : String) : String :=
  match strBreak delim s.toList with
  | none => ""
  | some p => String.mk p.2

/-! ## SDP data model -/

/-- Media kind of a track (`TrackType` in the source). -/
inductive TrackType where
  | TrackInvalid
  | TrackTitle
  | TrackAudio
  | TrackVideo
deriving DecidableEq, Repr

/-- One row of the static `RTP_PT_MAP` payload table (declared in
`Rtsp.h`, outside this source unit). Modelled from the spec: an entry
carries payload-type number, media kind, clock rate, channel count and a
codec identifier (codec ids modelled as plain naturals). The functions
below take the table as an argument, since its rows are not part of this
source unit. -/
structure PtEntry where
  pt : Int
  type : TrackType
  clock_rate : Int
  channel : Int
  codec : Nat
deriving DecidableEq, Repr

/-- `RtpPayload::getClockRate`: clock rate of a payload-type number,
defaulting to 90000 for an unknown payload type. -/
def getClockRate (table : List PtEntry) (pt : Int) : Int :=
  match table.find? (fun e => e.pt == pt) with
  | some e => e.clock_rate
  | none => 90000

/-- `RtpPayload::getAudioChannel`: channel count of a payload-type
number, defaulting to 1 for an unknown payload type. -/
def getAudioChannel (table : List PtEntry) (pt : Int) : Int :=
  match table.find? (fun e => e.pt == pt) with
  | some e => e.channel
  | none => 1

/-- `RtpPayload::getPayloadType`: look up the codec in the table
(`std::map` built by sequential insertion, so the first row of a codec
wins); `-1` when absent; for an audio track additionally `-1` when the
track's sample rate or channel count differ from the table row. -/
def getPayloadType (table : List PtEntry) (codec : Nat) (trackType : TrackType)
    (sampleRate channels : Int) : Int :=
  match table.find? (fun e => e.codec == codec) with
  | none => -1
  | some e =>
    if trackType = TrackType.TrackAudio then
      if sampleRate ≠ e.clock_rate ∨ channels ≠ e.channel then -1 else e.pt
    else e.pt

/-- One parsed SDP record (`SdpTrack` in the source). Field defaults are
modelled from the spec: payload type `0xFF` is the unset sentinel; the
attribute multimap is kept as a key-sorted, insertion-stable association
list, which is exactly the `std::multimap` iteration order. The
floating-point `_start`/`_end`/`_duration` fields of the source are
elided: no claim concerns them and no other field depends on them. -/
structure SdpTrack where
  _type : TrackType := TrackType.TrackInvalid
  _pt : Int := 0xff
  _codec : String := ""
  _fmtp : String := ""
  _samplerate : Int := 0
  _channel : Int := 0
  _port : Int := 0
  _t : String := ""
  _b : String := ""
  _control : String := ""
  _attr : List (String × String) := []
  _other : List (Char × String) := []
deriving DecidableEq, Repr

/-- `toTrackType`: empty string means the session title, otherwise
`video`/`audio`/invalid. -/
def toTrackType (str : String) : TrackType :=
  if str = "" then TrackType.TrackTitle
  else if str = "video" then TrackType.TrackVideo
  else if str = "audio" then TrackType.TrackAudio
  else TrackType.TrackInvalid

/-- `std::multimap::emplace`: insert after every entry whose key is `≤`
the new key, before the first strictly greater key. -/
def mmInsert : List (String × String) → String × String → List (String × String)
  | [], pr => [pr]
  | q :: rest, pr => if pr.1 < q.1 then pr :: q :: rest else q :: mmInsert rest pr

/-- `std::map::operator[]` assignment for the `_other` lines: last write
under a key wins. -/
def mapSet : List (Char × String) → Char → String → List (Char × String)
  | [], k, v => [(k, v)]
  | q :: rest, k, v => if q.1 = k then (k, v) :: rest else q :: mapSet rest k v

/-! ## SdpParser::load — first pass -/

/-- Parser state of the first pass of `SdpParser::load`: the finalized
tracks, the track currently pointed at, and whether that track has been
pushed into the vector (an `m=` line whose body matches neither media
pattern leaves the freshly created track outside the vector, and later
lines mutate that orphan). -/
structure ParseState where
  done : List SdpTrack
  cur : SdpTrack
  curLive : Bool
deriving DecidableEq, Repr

/-- Track list represented by a parser state. -/
def ParseState.tracks (st : ParseState) : List SdpTrack :=
  st.done ++ (if st.curLive then [st.cur] else [])

/-- The `m=` case of `SdpParser::load`: try the pattern without a port
count, then the one with a port count; on a match build the new track
from the parsed fields and the payload-table defaults. -/
def parseMediaLine (table : List PtEntry) (opt_val : String) : Option SdpTrack :=
  match scanMedia4 opt_val with
  | some (ty, port, _proto, pt) =>
    some { _pt := pt, _samplerate := getClockRate table pt,
           _channel := getAudioChannel table pt, _type := toTrackType ty, _port := port }
  | none =>
    match scanMedia5 opt_val with
    | some (ty, port, _count, _proto, pt) =>
      some { _pt := pt, _samplerate := getClockRate table pt,
             _channel := getAudioChannel table pt, _type := toTrackType ty, _port := port }
    | none => none

/-- Modelled from the spec: the characters stripped by toolkit `trim`. -/
def isTrimChar (c : Char) : Bool :=
  c = ' ' || c = '\r' || c = '\n' || c = '\t'

/-- Modelled from the spec: toolkit `trim` strips surrounding
whitespace. -/
def trimList (s : List Char) : List Char :=
  ((s.dropWhile isTrimChar).reverse.dropWhile isTrimChar).reverse

/-- Modelled from the spec: toolkit `split` on the newline delimiter. -/
def splitNlAux : List Char → List Char → List (List Char)
  | [], acc => [acc.reverse]
  | c :: cs, acc =>
    if c = '\n' then acc.reverse :: splitNlAux cs []
    else splitNlAux cs (c :: acc)

/-- Split an SDP text into its lines. -/
def splitNl (s : List Char) : List (List Char) :=
  splitNlAux s []

/-- One line of the first pass of `SdpParser::load`. The line is trimmed
(modelled from the spec: toolkit `trim` strips surrounding whitespace);
lines shorter than 2 characters or without `=` in second position are
skipped; dispatch is on the first character. -/
def lineStep (table : List PtEntry) (st : ParseState) (line : List Char) : ParseState :=
  let line := trimList line
  if line.length < 2 then st
  else if line.getD 1 ' ' ≠ '=' then st
  else
    let opt := line.getD 0 ' '
    let opt_val := String.mk (line.drop 2)
    if opt = 't' then { st with cur := { st.cur with _t := opt_val } }
    else if opt = 'b' then { st with cur := { st.cur with _b := opt_val } }
    else if opt = 'm' then
      let done := st.done ++ (if st.curLive then [st.cur] else [])
      match parseMediaLine table opt_val with
      | some tr => { done := done, cur := tr, curLive := true }
      | none => { done := done, cur := {}, curLive := false }
    else if opt = 'a' then
      let attr := findSubStringTo ':' opt_val
      if attr = "" then
        { st with cur := { st.cur with _attr := mmInsert st.cur._attr (opt_val, "") } }
      else
        { st with cur := { st.cur with
            _attr := mmInsert st.cur._attr (attr, findSubStringFrom ':' opt_val) } }
    else { st with cur := { st.cur with _other := mapSet st.cur._other opt opt_val } }

/-- First pass of `SdpParser::load`: start from a fresh Title track
already in the vector, then fold over the lines of the input split on
newlines (modelled from the spec: toolkit `split`). -/
def firstPass (table : List PtEntry) (sdp : String) : List SdpTrack :=
  let st0 : ParseState :=
    { done := [], cur := { _type := TrackType.TrackTitle }, curLive := true }
  ((splitNl sdp.toList).foldl (lineStep table) st0).tracks

/-! ## SdpParser::load — post-processing

The range step of the source (`sscanf("%15[^=]=%15[^-]-%15s")`, `atof`,
float subtraction) is elided: it writes only the elided floating-point
fields and reads nothing any claim depends on.

In the rtpmap and fmtp loops the local `int pt` is uninitialized; when
the leading `sscanf("%d")` conversion fails it is never written and the
subsequent comparison reads an indeterminate value. That value is made
explicit as the `junk` argument. -/

/-- One rtpmap entry of the rtpmap loop of `SdpParser::load`: parse the
leading payload-type number; erase the entry on a mismatch with the
track's payload type unless that is the `0xff` sentinel; otherwise the
4-field form updates codec/rate/channels and the 3-field form updates
payload type/codec/rate. Returns the updated track and whether the entry
survives. -/
def rtpmapStep (junk : Int) (t : SdpTrack) (v : String) : SdpTrack × Bool :=
  let pt := (scanLeadingInt v).getD junk
  if t._pt ≠ pt ∧ t._pt ≠ 0xff then (t, false)
  else
    match scanRtpmap4 v with
    | some (_, codec, samplerate, channel) =>
      ({ t with _codec := codec, _samplerate := samplerate, _channel := channel }, true)
    | none =>
      match scanRtpmap3 v with
      | some (pt2, codec, samplerate) =>
        ({ t with _pt := pt2, _codec := codec, _samplerate := samplerate }, true)
      | none => (t, true)

/-- One fmtp entry of the fmtp loop of `SdpParser::load`: same
mismatch-erase rule; a surviving entry's text after the first space
becomes the format-parameter string. -/
def fmtpStep (junk : Int) (t : SdpTrack) (v : String) : SdpTrack × Bool :=
  let pt := (scanLeadingInt v).getD junk
  if t._pt ≠ pt ∧ t._pt ≠ 0xff then (t, false)
  else ({ t with _fmtp := findSubStringFrom ' ' v }, true)

/-- The iterator loop shape shared by the rtpmap and fmtp passes: visit
the entries whose key matches (in a key-sorted multimap they form one
contiguous run, so this equals iterating from `find` while the key
matches), threading the track state and erasing the entries the step
rejects. -/
def runLoop (step : SdpTrack → String → SdpTrack × Bool) (key : String) :
    SdpTrack → List (String × String) → SdpTrack × List (String × String)
  | t, [] => (t, [])
  | t, (k, v) :: rest =>
    if k = key then
      let s := step t v
      let r := runLoop step key s.1 rest
      (r.1, if s.2 then (k, v) :: r.2 else r.2)
    else
      let r := runLoop step key t rest
      (r.1, (k, v) :: r.2)

/-- `std::multimap::find`: value of the first entry with the given key. -/
def findFirstVal (key : String) (attr : List (String × String)) : Option String :=
  (attr.find? (fun pr => pr.1 == key)).map (·.2)

/-- Sample-rate fallback of `SdpParser::load`: an unset video rate
becomes 90000; an unset audio rate is resolved through
`Factory::getTrackBySdp` (outside this source unit — modelled from the
spec as an oracle returning the constructed audio track's sample rate,
or `none` when no track could be constructed). -/
def sampleRateFallback (oracle : SdpTrack → Option Int) (t : SdpTrack) : SdpTrack :=
  if t._samplerate = 0 ∧ t._type = TrackType.TrackVideo then
    { t with _samplerate := 90000 }
  else if t._samplerate = 0 ∧ t._type = TrackType.TrackAudio then
    match oracle t with
    | some samplerate => { t with _samplerate := samplerate }
    | none => t
  else t

/-- Post-processing of one track of `SdpParser::load`: rtpmap loop, fmtp
loop, control lookup, sample-rate fallback. -/
def postProcessTrack (junk : Int) (oracle : SdpTrack → Option Int) (t : SdpTrack) :
    SdpTrack :=
  let p1 := runLoop (rtpmapStep junk) "rtpmap" t t._attr
  let t1 := { p1.1 with _attr := p1.2 }
  let p2 := runLoop (fmtpStep junk) "fmtp" t1 t1._attr
  let t2 := { p2.1 with _attr := p2.2 }
  let t3 := match findFirstVal "control" t2._attr with
    | some v => { t2 with _control := v }
    | none => t2
  sampleRateFallback oracle t3

/-- `SdpParser::load`: first pass, then per-track post-processing. -/
def load (table : List PtEntry) (junk : Int) (oracle : SdpTrack → Option Int)
    (sdp : String) : List SdpTrack :=
  (firstPass table sdp).map (postProcessTrack junk oracle)

/-! ## SdpParser::getAvailableTrack -/

/-- Loop of `SdpParser::getAvailableTrack`, with the two
already-added flags. -/
def getAvailableTrackGo : List SdpTrack → Bool → Bool → List SdpTrack
  | [], _, _ => []
  | t :: ts, audio_added, video_added =>
    if t._type = TrackType.TrackAudio then
      if audio_added then getAvailableTrackGo ts audio_added video_added
      else t :: getAvailableTrackGo ts true video_added
    else if t._type = TrackType.TrackVideo then
      if video_added then getAvailableTrackGo ts audio_added video_added
      else t :: getAvailableTrackGo ts audio_added true
    else getAvailableTrackGo ts audio_added video_added

/-- `SdpParser::getAvailableTrack`: collect the first audio and the
first video track in original order. -/
def getAvailableTrack (tv : List SdpTrack) : List SdpTrack :=
  getAvailableTrackGo tv false false

/-! ## SdpTrack serialization -/

/-- One non-control attribute line of `getAttrSdp`: no colon when the
value is empty. -/
def fmtAttrLine (pr : String × String) : String :=
  if pr.2 = "" then "a=" ++ pr.1 else "a=" ++ pr.1 ++ ":" ++ pr.2

/-- Loop of `getAttrSdp`: a control entry is remembered (last one wins)
and skipped; every other entry is emitted in iteration order; the
remembered control entry, if any, is emitted last, always with a colon. -/
def getAttrSdpGo : List (String × String) → Option (String × String) → List String
  | [], ptr =>
    match ptr with
    | none => []
    | some pr => ["a=" ++ pr.1 ++ ":" ++ pr.2]
  | pr :: rest, ptr =>
    if pr.1 = "control" then getAttrSdpGo rest (some pr)
    else fmtAttrLine pr :: getAttrSdpGo rest ptr

/-- `getAttrSdp` over the attribute multimap in iteration order. -/
def getAttrSdp (attr : List (String × String)) : List String :=
  getAttrSdpGo attr none

/-- `SdpTrack::toString` for the audio/video cases, as the list of
emitted lines: the `m=` line, the optional `b=` line, then the attribute
lines. The Title case (built by `TitleSdp`) is outside the claims and is
elided; the default case emits nothing. -/
def toStringLines (t : SdpTrack) (port : Nat) : List String :=
  if t._type = TrackType.TrackAudio ∨ t._type = TrackType.TrackVideo then
    (if t._type = TrackType.TrackAudio
      then "m=audio " ++ toString port ++ " RTP/AVP " ++ toString t._pt
      else "m=video " ++ toString port ++ " RTP/AVP " ++ toString t._pt)
    :: ((if t._b = "" then [] else ["b=" ++ t._b]) ++ getAttrSdp t._attr)
  else []

/-! ## PortManager -/

/-- The range-string parser of the `PortManager` constructor:
`sscanf(str, "%hu-%hu", port, port + 1)` over the defaults
`{30000, 35000}`; each conversion that succeeds overwrites its slot, a
failed one leaves the default (the `uint16_t` conversion reduces the
value modulo `2 ^ 16`). -/
def parsePortRange (str : String) : Nat × Nat :=
  match scanInt str.toList with
  | none => (30000, 35000)
  | some (v1, r1) =>
    let p0 := (v1 % 65536).toNat
    match scanLit '-' r1 with
    | none => (p0, 35000)
    | some r2 =>
      match scanInt r2 with
      | none => (p0, 35000)
      | some (v2, _) => (p0, (v2 % 65536).toNat)

/-- Loop of `PortManager::setRange`: insert `start_pos` at the cursor,
then move the cursor to a random position among the current contents
(`rng() % (1 + size)`); the random stream is the argument `rands`,
indexed by draw. The first argument is recursion fuel; the loop runs
exactly `end_pos - start_pos` times, which the caller supplies. -/
def setRangeAux (rands : Nat → Nat) :
    Nat → Nat → Nat → Nat → List Nat → Nat → List Nat
  | 0, _, _, _, pool, _ => pool
  | fuel + 1, k, start_pos, end_pos, pool, itPos =>
    if start_pos < end_pos then
      setRangeAux rands fuel (k + 1) (start_pos + 1) end_pos
        (pool.insertIdx itPos start_pos)
        (rands k % (1 + (pool.insertIdx itPos start_pos).length))
    else pool

/-- `PortManager::setRange`: fill `[start_pos, end_pos)` into an empty
deque with the randomized cursor starting at `begin()`. -/
def setRange (rands : Nat → Nat) (start_pos end_pos : Nat) : List Nat :=
  setRangeAux rands (end_pos - start_pos) 0 start_pos end_pos [] 0

/-- The `PortManager` constructor: parse the configured range string and
call `setRange((min + 1) / 2, max / 2)`. The `assert` on the range width
(a fatal startup condition) does not affect the pool contents and is
elided. -/
def portManagerPool (str : String) (rands : Nat → Nat) : List Nat :=
  setRange rands (((parsePortRange str).1 + 1) / 2) ((parsePortRange str).2 / 2)

/-- The two physical ports bound by `makeSockPair_l` for a pair index. -/
def sockPairPorts (pos : Nat) : Nat × Nat :=
  (2 * pos, 2 * pos + 1)

/-- State of one port-pair pool: the deque of free pair indices and the
multiset of indices currently held by live handles. -/
structure PoolState where
  pool : List Nat
  outstanding : List Nat
deriving DecidableEq, Repr

/-- `PortManager::getPortPair`: `none` on an empty deque (never blocks),
otherwise pop the front; the popped index becomes outstanding. -/
def getPortPair (s : PoolState) : Option Nat × PoolState :=
  match s.pool with
  | [] => (none, s)
  | pos :: rest => (some pos, { pool := rest, outstanding := pos :: s.outstanding })

/-- The shared-pointer deleter of `getPortPair`: when the last handle of
an index is dropped the index is pushed to the back of the deque. -/
def releasePair (pos : Nat) (s : PoolState) : PoolState :=
  { pool := s.pool ++ [pos], outstanding := s.outstanding.erase pos }

/-- An acquire or release event on one pool. -/
inductive PoolOp where
  | acquire
  | release (pos : Nat)
deriving DecidableEq, Repr

/-- Run a sequence of events; a release only fires for an index a live
handle actually holds. -/
def runPool : PoolState → List PoolOp → PoolState
  | s, [] => s
  | s, PoolOp.acquire :: ops => runPool (getPortPair s).2 ops
  | s, PoolOp.release pos :: ops =>
    if pos ∈ s.outstanding then runPool (releasePair pos s) ops else runPool s ops

/-! ## The free function makeSockPair -/

/-- Loop of the free function `makeSockPair`: run one acquire-and-bind
attempt; on success return (the returned number counts the attempts
made); on an exception rethrow it when `++try_count == 3`, else retry.
`fuel` is `3 - try_count`; the entry point supplies `3`, so the
zero-fuel branch is never reached from it. -/
def sockPairLoop {E : Type} (attempts : Nat → Except E Unit) :
    Nat → Nat → Except E Nat
  | try_count, 0 =>
    match attempts try_count with
    | Except.ok _ => Except.ok (try_count + 1)
    | Except.error e => Except.error e
  | try_count, fuel + 1 =>
    match attempts try_count with
    | Except.ok _ => Except.ok (try_count + 1)
    | Except.error e =>
      if try_count + 1 = 3 then Except.error e
      else sockPairLoop attempts (try_count + 1) fuel

/-- The free function `makeSockPair`: retry the acquire-and-bind
sequence from `try_count = 0`. -/
def makeSockPairRetry {E : Type} (attempts : Nat → Except E Unit) : Except E Nat :=
  sockPairLoop attempts 0 3

/-! ## C3: rtpmap/fmtp pruning -/

lemma scanRtpmap3_leading (v : String) (p : Int) (c : String) (sr : Int)
    (h : scanRtpmap3 v = some (p, c, sr)) : scanLeadingInt v = some p := by
  unfold scanRtpmap3 at h
  simp only [Option.pure_def, Option.bind_eq_bind, Option.bind_eq_some] at h
  obtain ⟨⟨q, r1⟩, h1, h⟩ := h
  obtain ⟨⟨cdc, r2⟩, h2, h⟩ := h
  obtain ⟨r3, h3, h⟩ := h
  obtain ⟨⟨srr, r4⟩, h4, h⟩ := h
  simp only [Option.some.injEq, Prod.mk.injEq] at h
  unfold scanLeadingInt
  rw [h1]
  simp [h.1]

/-- C3: in the post-processing loops of `SdpParser::load`, an rtpmap or
fmtp attribute whose leading payload-type number differs from the
track's current payload type is erased without changing the track,
unless the payload type is the `0xFF` sentinel; a surviving 4-field
rtpmap sets codec, sample rate and channel count and leaves the payload
type unchanged; a surviving 3-field rtpmap sets codec and sample rate
and overwrites the payload type with the attribute's leading number; a
surviving fmtp sets the format-parameter string to the text after the
first space. -/
theorem rtpmap_fmtp_pruning (junk : Int) (t : SdpTrack) (v : String) (p : Int)
    (hp : scanLeadingInt v = some p) :
    ((t._pt ≠ p ∧ t._pt ≠ 0xff) →
      rtpmapStep junk t v = (t, false) ∧ fmtpStep junk t v = (t, false))
    ∧ (¬(t._pt ≠ p ∧ t._pt ≠ 0xff) →
        (∀ q c sr ch, scanRtpmap4 v = some (q, c, sr, ch) →
          rtpmapStep junk t v
            = ({ t with _codec := c, _samplerate := sr, _channel := ch }, true))
        ∧ (∀ q c sr, scanRtpmap4 v = none → scanRtpmap3 v = some (q, c, sr) →
            q = p ∧ rtpmapStep junk t v
              = ({ t with _pt := p, _codec := c, _samplerate := sr }, true))
        ∧ (scanRtpmap4 v = none → scanRtpmap3 v = none →
            rtpmapStep junk t v = (t, true))
        ∧ fmtpStep junk t v
            = ({ t with _fmtp := findSubStringFrom ' ' v }, true)) := by
  have hgd : (scanLeadingInt v).getD junk = p := by rw [hp]; rfl
  constructor
  · intro hmis
    constructor
    · unfold rtpmapStep
      rw [hgd, if_pos hmis]
    · unfold fmtpStep
      rw [hgd, if_pos hmis]
  · intro hmat
    refine ⟨?_, ?_, ?_, ?_⟩
    · intro q c sr ch h4
      unfold rtpmapStep
      rw [hgd, if_neg hmat, h4]
    · intro q c sr h4 h3
      have hq : q = p := by
        have := scanRtpmap3_leading v q c sr h3
        rw [hp] at this
        exact (Option.some.inj this).symm
      refine ⟨hq, ?_⟩
      unfold rtpmapStep
      rw [hgd, if_neg hmat, h4, h3, hq]
    · intro h4 h3
      unfold rtpmapStep
      rw [hgd, if_neg hmat, h4, h3]
    · unfold fmtpStep
      rw [hgd, if_neg hmat]

/-- C3 witness: on a track with payload type 96, the mismatching
attribute value `97 H264/90000` is erased by both loops without
changing the track. -/
theorem rtpmap_fmtp_pruning_witness :
    scanLeadingInt "97 H264/90000" = some 97
    ∧ (({ _pt := 96, _type := TrackType.TrackAudio } : SdpTrack)._pt ≠ 97
        ∧ ({ _pt := 96, _type := TrackType.TrackAudio } : SdpTrack)._pt ≠ 0xff)
    ∧ (rtpmapStep 0 { _pt := 96, _type := TrackType.TrackAudio } "97 H264/90000"
          = ({ _pt := 96, _type := TrackType.TrackAudio }, false)
      ∧ fmtpStep 0 { _pt := 96, _type := TrackType.TrackAudio } "97 H264/90000"
          = ({ _pt := 96, _type := TrackType.TrackAudio }, false)) :=
  ⟨by decide, by decide,
    (rtpmap_fmtp_pruning 0 { _pt := 96, _type := TrackType.TrackAudio }
      "97 H264/90000" 97 (by decide)).1 (by decide)⟩

/-! ## C4: the pool serves pair indices in the configured half-open range -/

lemma setRangeAux_mem (rands : Nat → Nat) :
    ∀ (fuel k start_pos end_pos : Nat) (pool : List Nat) (itPos x : Nat),
      itPos ≤ pool.length →
      x ∈ setRangeAux rands fuel k start_pos end_pos pool itPos →
      x ∈ pool ∨ (start_pos ≤ x ∧ x < end_pos) := by
  intro fuel
  induction fuel with
  | zero =>
    intro k s e pool it x hit hx
    exact Or.inl hx
  | succ n ih =>
    intro k s e pool it x hit hx
    rw [setRangeAux] at hx
    by_cases hse : s < e
    · rw [if_pos hse] at hx
      have hit2 : rands k % (1 + (pool.insertIdx it s).length)
          ≤ (pool.insertIdx it s).length := by
        have := Nat.mod_lt (rands k)
          (show 0 < 1 + (pool.insertIdx it s).length by omega)
        omega
      rcases ih (k + 1) (s + 1) e (pool.insertIdx it s) _ x hit2 hx with hmem | hb
      · rcases (List.mem_insertIdx hit).mp hmem with hxs | hxp
        · exact Or.inr ⟨by omega, by omega⟩
        · exact Or.inl hxp
      · exact Or.inr ⟨by omega, hb.2⟩
    · rw [if_neg hse] at hx
      exact Or.inl hx

/-- C4: every pair index placed in a pool constructed from a configured
range string lies in `[minPort / 2, maxPort / 2)`, and the physical
ports bound for such an index are exactly `2 * pairIndex` and
`2 * pairIndex + 1`. -/
theorem port_pool_pair_index_range (str : String) (rands : Nat → Nat) (x : Nat)
    (hx : x ∈ portManagerPool str rands) :
    (parsePortRange str).1 / 2 ≤ x ∧ x < (parsePortRange str).2 / 2
    ∧ sockPairPorts x = (2 * x, 2 * x + 1) := by
  unfold portManagerPool setRange at hx
  rcases setRangeAux_mem rands _ 0 (((parsePortRange str).1 + 1) / 2)
      ((parsePortRange str).2 / 2) [] 0 x (by simp) hx with hmem | hb
  · simp at hmem
  · exact ⟨by omega, hb.2, rfl⟩

/-- C4 witness: with range string `10-14` and a constant random stream
the pool holds index 6, which lies in `[10 / 2, 14 / 2)`. -/
theorem port_pool_pair_index_range_witness :
    6 ∈ portManagerPool "10-14" (fun _ => 0)
    ∧ ((parsePortRange "10-14").1 / 2 ≤ 6 ∧ 6 < (parsePortRange "10-14").2 / 2
      ∧ sockPairPorts 6 = (2 * 6, 2 * 6 + 1)) :=
  ⟨by decide, port_pool_pair_index_range "10-14" (fun _ => 0) 6 (by decide)⟩

/-! ## C5: acquire/release keeps outstanding indices distinct -/

lemma getPortPair_keeps_nodup (s : PoolState)
    (h : (s.pool ++ s.outstanding).Nodup) :
    (((getPortPair s).2).pool ++ ((getPortPair s).2).outstanding).Nodup := by
  cases hp : s.pool with
  | nil =>
    simpa [getPortPair, hp] using h
  | cons pos rest =>
    simp only [getPortPair, hp]
    have hperm : ((pos :: rest) ++ s.outstanding).Perm (rest ++ pos :: s.outstanding) :=
      List.perm_middle.symm
    rw [hp] at h
    exact hperm.nodup h

lemma releasePair_keeps_nodup (s : PoolState) (pos : Nat)
    (hin : pos ∈ s.outstanding) (h : (s.pool ++ s.outstanding).Nodup) :
    ((releasePair pos s).pool ++ (releasePair pos s).outstanding).Nodup := by
  simp only [releasePair]
  have h1 : (s.pool ++ s.outstanding).Perm
      (s.pool ++ (pos :: s.outstanding.erase pos)) :=
    List.Perm.append_left _ (List.perm_cons_erase hin)
  have h2 : s.pool ++ (pos :: s.outstanding.erase pos)
      = (s.pool ++ [pos]) ++ s.outstanding.erase pos := by
    rw [List.append_assoc]
    rfl
  exact (h2 ▸ h1).nodup h

lemma runPool_nodup : ∀ (ops : List PoolOp) (s : PoolState),
    (s.pool ++ s.outstanding).Nodup →
    ((runPool s ops).pool ++ (runPool s ops).outstanding).Nodup := by
  intro ops
  induction ops with
  | nil => intro s h; exact h
  | cons op ops ih =>
    intro s h
    cases op with
    | acquire =>
      rw [runPool]
      exact ih _ (getPortPair_keeps_nodup s h)
    | release pos =>
      rw [runPool]
      by_cases hin : pos ∈ s.outstanding
      · rw [if_pos hin]
        exact ih _ (releasePair_keeps_nodup s pos hin h)
      · rw [if_neg hin]
        exact ih _ h

/-- C5: starting from a duplicate-free pool with duplicate-free
outstanding handles, any sequence of acquires and releases keeps the
simultaneously outstanding pair indices pairwise distinct; an acquire on
an empty deque returns `none`; a released index is back in the deque and
so acquirable again. -/
theorem port_pool_no_double_allocation (s : PoolState) (ops : List PoolOp)
    (h : (s.pool ++ s.outstanding).Nodup) :
    ((runPool s ops).pool ++ (runPool s ops).outstanding).Nodup
    ∧ (runPool s ops).outstanding.Nodup
    ∧ (∀ s2 : PoolState, s2.pool = [] → (getPortPair s2).1 = none)
    ∧ (∀ (pos : Nat) (s2 : PoolState), pos ∈ (releasePair pos s2).pool) := by
  have hrun := runPool_nodup ops s h
  refine ⟨hrun, hrun.of_append_right, ?_, ?_⟩
  · intro s2 h2
    simp [getPortPair, h2]
  · intro pos s2
    simp [releasePair]

/-- C5 witness: from pool `[1, 2]`, acquire then release 1 then acquire
leaves distinct outstanding handles. -/
theorem port_pool_no_double_allocation_witness :
    (([1, 2] ++ ([] : List Nat)).Nodup)
    ∧ (runPool ⟨[1, 2], []⟩
        [PoolOp.acquire, PoolOp.release 1, PoolOp.acquire]).outstanding.Nodup :=
  ⟨by decide,
    (port_pool_no_double_allocation ⟨[1, 2], []⟩
      [PoolOp.acquire, PoolOp.release 1, PoolOp.acquire] (by decide)).2.1⟩

/-! ## C8: load always yields a Title record first and nowhere else -/

lemma rtpmapStep_type (junk : Int) (t : SdpTrack) (v : String) :
    (rtpmapStep junk t v).1._type = t._type := by
  by_cases hmis : (t._pt ≠ (scanLeadingInt v).getD junk ∧ t._pt ≠ 0xff)
  · simp [rtpmapStep, hmis]
  · cases h4 : scanRtpmap4 v with
    | some quad =>
      obtain ⟨q, c, sr, ch⟩ := quad
      simp [rtpmapStep, hmis, h4]
    | none =>
      cases h3 : scanRtpmap3 v with
      | some tri =>
        obtain ⟨q, c, sr⟩ := tri
        simp [rtpmapStep, hmis, h4, h3]
      | none => simp [rtpmapStep, hmis, h4, h3]

lemma fmtpStep_type (junk : Int) (t : SdpTrack) (v : String) :
    (fmtpStep junk t v).1._type = t._type := by
  by_cases hmis : (t._pt ≠ (scanLeadingInt v).getD junk ∧ t._pt ≠ 0xff)
  · simp [fmtpStep, hmis]
  · simp [fmtpStep, hmis]

lemma runLoop_type (step : SdpTrack → String → SdpTrack × Bool) (key : String)
    (hstep : ∀ t v, (step t v).1._type = t._type) :
    ∀ (attr : List (String × String)) (t : SdpTrack),
      (runLoop step key t attr).1._type = t._type := by
  intro attr
  induction attr with
  | nil => intro t; rfl
  | cons pr rest ih =>
    intro t
    obtain ⟨k, v⟩ := pr
    rw [runLoop]
    by_cases hk : k = key
    · rw [if_pos hk]
      simp only []
      rw [ih (step t v).1]
      exact hstep t v
    · rw [if_neg hk]
      simp only []
      exact ih t

lemma sampleRateFallback_type (oracle : SdpTrack → Option Int) (t : SdpTrack) :
    (sampleRateFallback oracle t)._type = t._type := by
  unfold sampleRateFallback
  split
  · rfl
  · split
    · split
      · rfl
      · rfl
    · rfl

lemma postProcessTrack_type (junk : Int) (oracle : SdpTrack → Option Int)
    (t : SdpTrack) : (postProcessTrack junk oracle t)._type = t._type := by
  unfold postProcessTrack
  rw [sampleRateFallback_type]
  split
  · simp only []
    rw [show ∀ (u : SdpTrack) (attr : List (String × String)),
        ({ u with _attr := attr } : SdpTrack)._type = u._type from fun _ _ => rfl]
    rw [runLoop_type _ _ (fmtpStep_type junk)]
    rw [show ∀ (u : SdpTrack) (attr : List (String × String)),
        ({ u with _attr := attr } : SdpTrack)._type = u._type from fun _ _ => rfl]
    exact runLoop_type _ _ (rtpmapStep_type junk) t._attr t
  · rw [show ∀ (u : SdpTrack) (attr : List (String × String)),
        ({ u with _attr := attr } : SdpTrack)._type = u._type from fun _ _ => rfl]
    rw [runLoop_type _ _ (fmtpStep_type junk)]
    rw [show ∀ (u : SdpTrack) (attr : List (String × String)),
        ({ u with _attr := attr } : SdpTrack)._type = u._type from fun _ _ => rfl]
    exact runLoop_type _ _ (rtpmapStep_type junk) t._attr t

lemma scanCharset_ne_empty (w : Nat) (p : Char → Bool) (s r : List Char)
    (out : String) (h : scanCharset w p s = some (out, r)) : out ≠ "" := by
  unfold scanCharset at h
  by_cases he : (takeWidth w p s).1.isEmpty
  · rw [if_pos he] at h
    exact absurd h (by simp)
  · rw [if_neg he] at h
    obtain ⟨ho, _⟩ := Prod.mk.injEq .. ▸ Option.some.inj h
    intro hempty
    rw [hempty] at ho
    have : (takeWidth w p s).1 = [] := by
      have := congrArg String.data ho
      simpa using this
    rw [this] at he
    simp at he

lemma scanMedia4_ty_ne_empty (s ty proto : String) (port pt : Int)
    (h : scanMedia4 s = some (ty, port, proto, pt)) : ty ≠ "" := by
  unfold scanMedia4 at h
  simp only [Option.pure_def, Option.bind_eq_bind, Option.bind_eq_some] at h
  obtain ⟨⟨ty0, r1⟩, h1, h⟩ := h
  obtain ⟨⟨port0, r2⟩, h2, h⟩ := h
  obtain ⟨⟨proto0, r3⟩, h3, h⟩ := h
  obtain ⟨⟨pt0, r4⟩, h4, h⟩ := h
  simp only [Option.some.injEq, Prod.mk.injEq] at h
  rw [← h.1]
  exact scanCharset_ne_empty _ _ _ _ _ h1

lemma scanMedia5_ty_ne_empty (s ty proto : String) (port count pt : Int)
    (h : scanMedia5 s = some (ty, port, count, proto, pt)) : ty ≠ "" := by
  unfold scanMedia5 at h
  simp only [Option.pure_def, Option.bind_eq_bind, Option.bind_eq_some] at h
  obtain ⟨⟨ty0, r1⟩, h1, h⟩ := h
  obtain ⟨⟨port0, r2⟩, h2, h⟩ := h
  obtain ⟨r3, h3, h⟩ := h
  obtain ⟨⟨count0, r4⟩, h4, h⟩ := h
  obtain ⟨⟨proto0, r5⟩, h5, h⟩ := h
  obtain ⟨⟨pt0, r6⟩, h6, h⟩ := h
  simp only [Option.some.injEq, Prod.mk.injEq] at h
  rw [← h.1]
  exact scanCharset_ne_empty _ _ _ _ _ h1

lemma toTrackType_ne_title (s : String) (hs : s ≠ "") :
    toTrackType s ≠ TrackType.TrackTitle := by
  unfold toTrackType
  rw [if_neg hs]
  split
  · simp
  · split
    · simp
    · simp

lemma parseMediaLine_type (table : List PtEntry) (opt_val : String) (tr : SdpTrack)
    (h : parseMediaLine table opt_val = some tr) :
    tr._type ≠ TrackType.TrackTitle := by
  unfold parseMediaLine at h
  cases h4 : scanMedia4 opt_val with
  | some q =>
    obtain ⟨ty, port, proto, pt⟩ := q
    rw [h4] at h
    simp only [Option.some.injEq] at h
    rw [← h]
    exact toTrackType_ne_title ty (scanMedia4_ty_ne_empty _ _ _ _ _ h4)
  | none =>
    rw [h4] at h
    cases h5 : scanMedia5 opt_val with
    | some q =>
      obtain ⟨ty, port, count, proto, pt⟩ := q
      rw [h5] at h
      simp only [Option.some.injEq] at h
      rw [← h]
      exact toTrackType_ne_title ty (scanMedia5_ty_ne_empty _ _ _ _ _ _ h5)
    | none =>
      rw [h5] at h
      exact absurd h (by simp)

/-- The per-list shape of the Title invariant: non-empty, the head is a
Title record, no Title record anywhere else. -/
def TracksOK (l : List SdpTrack) : Prop :=
  l.head?.map (·._type) = some TrackType.TrackTitle
  ∧ ∀ t ∈ l.tail, t._type ≠ TrackType.TrackTitle

lemma TracksOK_congr (done : List SdpTrack) (live : Bool) (c c2 : SdpTrack)
    (hty : c2._type = c._type)
    (h : TracksOK (done ++ if live then [c] else [])) :
    TracksOK (done ++ if live then [c2] else []) := by
  cases live with
  | false => simpa using h
  | true =>
    obtain ⟨hhead, htail⟩ := h
    cases done with
    | nil =>
      refine ⟨?_, ?_⟩
      · simpa [hty] using hhead
      · intro t ht
        simp at ht
    | cons d ds =>
      refine ⟨by simpa using hhead, ?_⟩
      intro t ht
      simp only [List.cons_append, List.tail_cons] at ht htail
      rcases List.mem_append.mp ht with hds | hc2
      · exact htail t (List.mem_append.mpr (Or.inl hds))
      · simp at hc2
        subst hc2
        rw [hty]
        refine htail c (List.mem_append.mpr (Or.inr ?_))
        simp

lemma TracksOK_append (A : List SdpTrack) (t : SdpTrack)
    (hA : TracksOK A) (ht : t._type ≠ TrackType.TrackTitle) :
    TracksOK (A ++ [t]) := by
  obtain ⟨hhead, htail⟩ := hA
  cases A with
  | nil => simp at hhead
  | cons d ds =>
    refine ⟨by simpa using hhead, ?_⟩
    intro u hu
    simp only [List.cons_append, List.tail_cons] at hu ⊢
    rcases List.mem_append.mp hu with h1 | h2
    · exact htail u h1
    · simp at h2
      subst h2
      exact ht

lemma lineStep_inv (table : List PtEntry) (st : ParseState) (line : List Char)
    (h : TracksOK st.tracks) : TracksOK (lineStep table st line).tracks := by
  simp only [lineStep]
  by_cases h1 : (trimList line).length < 2
  · rw [if_pos h1]
    exact h
  rw [if_neg h1]
  by_cases h2 : (trimList line).getD 1 ' ' ≠ '='
  · rw [if_pos h2]
    exact h
  rw [if_neg h2]
  by_cases h3 : (trimList line).getD 0 ' ' = 't'
  · rw [if_pos h3]
    exact TracksOK_congr st.done st.curLive st.cur _ rfl h
  rw [if_neg h3]
  by_cases h4 : (trimList line).getD 0 ' ' = 'b'
  · rw [if_pos h4]
    exact TracksOK_congr st.done st.curLive st.cur _ rfl h
  rw [if_neg h4]
  by_cases h5 : (trimList line).getD 0 ' ' = 'm'
  · rw [if_pos h5]
    cases hp : parseMediaLine table (String.mk ((trimList line).drop 2)) with
    | some tr =>
      dsimp only
      rw [show (ParseState.tracks
            { done := st.done ++ (if st.curLive then [st.cur] else []),
              cur := tr, curLive := true })
          = st.tracks ++ [tr] from by simp [ParseState.tracks]]
      exact TracksOK_append _ _ h (parseMediaLine_type table _ tr hp)
    | none =>
      dsimp only
      rw [show (ParseState.tracks
            { done := st.done ++ (if st.curLive then [st.cur] else []),
              cur := {}, curLive := false })
          = st.tracks from by simp [ParseState.tracks]]
      exact h
  rw [if_neg h5]
  by_cases h6 : (trimList line).getD 0 ' ' = 'a'
  · rw [if_pos h6]
    by_cases h7 : findSubStringTo ':' (String.mk ((trimList line).drop 2)) = ""
    · rw [if_pos h7]
      exact TracksOK_congr st.done st.curLive st.cur _ rfl h
    · rw [if_neg h7]
      exact TracksOK_congr st.done st.curLive st.cur _ rfl h
  rw [if_neg h6]
  exact TracksOK_congr st.done st.curLive st.cur _ rfl h

lemma foldl_lineStep_inv (table : List PtEntry) :
    ∀ (lines : List (List Char)) (st : ParseState), TracksOK st.tracks →
      TracksOK (lines.foldl (lineStep table) st).tracks := by
  intro lines
  induction lines with
  | nil => intro st h; exact h
  | cons l rest ih =>
    intro st h
    exact ih _ (lineStep_inv table st l h)

lemma firstPass_TracksOK (table : List PtEntry) (sdp : String) :
    TracksOK (firstPass table sdp) := by
  unfold firstPass
  apply foldl_lineStep_inv
  refine ⟨rfl, ?_⟩
  intro t ht
  simp [ParseState.tracks] at ht

lemma TracksOK_map (f : SdpTrack → SdpTrack) (hf : ∀ t, (f t)._type = t._type)
    (l : List SdpTrack) (h : TracksOK l) : TracksOK (l.map f) := by
  obtain ⟨hhead, htail⟩ := h
  cases l with
  | nil => simp at hhead
  | cons d ds =>
    refine ⟨by simpa [hf] using hhead, ?_⟩
    intro t ht
    simp only [List.map_cons, List.tail_cons, List.mem_map] at ht
    obtain ⟨u, hu, rfl⟩ := ht
    rw [hf]
    exact htail u hu

/-- C8: after every `SdpParser::load`, for every input text, the track
sequence is non-empty, its first element is a Title record, and no other
element is a Title record. -/
theorem sdp_load_title_first (table : List PtEntry) (junk : Int)
    (oracle : SdpTrack → Option Int) (sdp : String) :
    load table junk oracle sdp ≠ []
    ∧ (load table junk oracle sdp).head?.map (·._type) = some TrackType.TrackTitle
    ∧ ∀ t ∈ (load table junk oracle sdp).tail, t._type ≠ TrackType.TrackTitle := by
  have h1 : TracksOK (load table junk oracle sdp) := by
    unfold load
    exact TracksOK_map _ (postProcessTrack_type junk oracle) _
      (firstPass_TracksOK table sdp)
  obtain ⟨hhead, htail⟩ := h1
  refine ⟨?_, hhead, htail⟩
  intro hnil
  rw [hnil] at hhead
  simp at hhead

/-- C8 witness: for the one-line SDP `m=audio 0 RTP/AVP 8`, the audio
track ends up in the tail and is not a Title record. -/
theorem sdp_load_title_first_witness :
    ({ _type := TrackType.TrackAudio, _pt := 8, _samplerate := 90000, _channel := 1 } : SdpTrack)
      ∈ (load [] 0 (fun _ => none) "m=audio 0 RTP/AVP 8").tail
    ∧ ({ _type := TrackType.TrackAudio, _pt := 8, _samplerate := 90000, _channel := 1 } : SdpTrack)._type
      ≠ TrackType.TrackTitle :=
  ⟨by decide,
    (sdp_load_title_first [] 0 (fun _ => none) "m=audio 0 RTP/AVP 8").2.2
      { _type := TrackType.TrackAudio, _pt := 8, _samplerate := 90000, _channel := 1 }
      (by decide)⟩

/-! ## C6: getAvailableTrack keeps only the first track of each kind -/

lemma mem_getAvailableTrackGo :
    ∀ (ts : List SdpTrack) (a v : Bool) (t : SdpTrack),
      t ∈ getAvailableTrackGo ts a v ↔
        (a = false ∧ t._type = TrackType.TrackAudio
          ∧ ts.find? (fun u => u._type == TrackType.TrackAudio) = some t)
        ∨ (v = false ∧ t._type = TrackType.TrackVideo
          ∧ ts.find? (fun u => u._type == TrackType.TrackVideo) = some t) := by
  intro ts
  induction ts with
  | nil =>
    intro a v t
    simp [getAvailableTrackGo]
  | cons hd rest ih =>
    intro a v t
    by_cases ha : hd._type = TrackType.TrackAudio
    · have hfA : (hd :: rest).find? (fun u => u._type == TrackType.TrackAudio)
          = some hd := List.find?_cons_of_pos _ (by simp [ha])
      have hfV : (hd :: rest).find? (fun u => u._type == TrackType.TrackVideo)
          = rest.find? (fun u => u._type == TrackType.TrackVideo) :=
        List.find?_cons_of_neg _ (by simp [ha])
      rw [hfA, hfV]
      cases a with
      | true =>
        rw [show getAvailableTrackGo (hd :: rest) true v
            = getAvailableTrackGo rest true v from by simp [getAvailableTrackGo, ha]]
        rw [ih]
        simp
      | false =>
        rw [show getAvailableTrackGo (hd :: rest) false v
            = hd :: getAvailableTrackGo rest true v from by
          simp [getAvailableTrackGo, ha]]
        simp only [List.mem_cons, ih, Option.some.injEq]
        constructor
        · rintro (rfl | (⟨hc, _⟩ | hvid))
          · exact Or.inl ⟨by simp, ha, by simp⟩
          · simp at hc
          · exact Or.inr hvid
        · rintro (⟨_, _, h⟩ | hvid)
          · exact Or.inl h.symm
          · exact Or.inr (Or.inr hvid)
    · by_cases hv : hd._type = TrackType.TrackVideo
      · have hfA : (hd :: rest).find? (fun u => u._type == TrackType.TrackAudio)
            = rest.find? (fun u => u._type == TrackType.TrackAudio) :=
          List.find?_cons_of_neg _ (by simp [hv])
        have hfV : (hd :: rest).find? (fun u => u._type == TrackType.TrackVideo)
            = some hd := List.find?_cons_of_pos _ (by simp [hv])
        rw [hfA, hfV]
        cases v with
        | true =>
          rw [show getAvailableTrackGo (hd :: rest) a true
              = getAvailableTrackGo rest a true from by
            simp [getAvailableTrackGo, ha, hv]]
          rw [ih]
          simp
        | false =>
          rw [show getAvailableTrackGo (hd :: rest) a false
              = hd :: getAvailableTrackGo rest a true from by
            simp [getAvailableTrackGo, ha, hv]]
          simp only [List.mem_cons, ih, Option.some.injEq]
          constructor
          · rintro (rfl | (haud | ⟨hc, _⟩))
            · exact Or.inr ⟨by simp, hv, by simp⟩
            · exact Or.inl haud
            · simp at hc
          · rintro (haud | ⟨_, _, h⟩)
            · exact Or.inr (Or.inl haud)
            · exact Or.inl h.symm
      · have hfA : (hd :: rest).find? (fun u => u._type == TrackType.TrackAudio)
            = rest.find? (fun u => u._type == TrackType.TrackAudio) :=
          List.find?_cons_of_neg _ (by simp [ha])
        have hfV : (hd :: rest).find? (fun u => u._type == TrackType.TrackVideo)
            = rest.find? (fun u => u._type == TrackType.TrackVideo) :=
          List.find?_cons_of_neg _ (by simp [hv])
        rw [hfA, hfV]
        rw [show getAvailableTrackGo (hd :: rest) a v
            = getAvailableTrackGo rest a v from by simp [getAvailableTrackGo, ha, hv]]
        exact ih a v t

lemma countP_getAvailableTrackGo_audio_true :
    ∀ (ts : List SdpTrack) (v : Bool),
      (getAvailableTrackGo ts true v).countP
        (fun u => u._type == TrackType.TrackAudio) = 0 := by
  intro ts
  induction ts with
  | nil => intro v; simp [getAvailableTrackGo]
  | cons hd rest ih =>
    intro v
    by_cases ha : hd._type = TrackType.TrackAudio
    · simpa [getAvailableTrackGo, ha] using ih v
    · by_cases hv : hd._type = TrackType.TrackVideo
      · cases v with
        | true => simpa [getAvailableTrackGo, ha, hv] using ih true
        | false =>
          rw [show getAvailableTrackGo (hd :: rest) true false
              = hd :: getAvailableTrackGo rest true true from by
            simp [getAvailableTrackGo, ha, hv]]
          have hb : (hd._type == TrackType.TrackAudio) = false := by simp [ha]
          rw [List.countP_cons]
          simpa [hb] using ih true
      · simpa [getAvailableTrackGo, ha, hv] using ih v

lemma countP_getAvailableTrackGo_audio :
    ∀ (ts : List SdpTrack) (v : Bool),
      (getAvailableTrackGo ts false v).countP
        (fun u => u._type == TrackType.TrackAudio) ≤ 1 := by
  intro ts
  induction ts with
  | nil => intro v; simp [getAvailableTrackGo]
  | cons hd rest ih =>
    intro v
    by_cases ha : hd._type = TrackType.TrackAudio
    · rw [show getAvailableTrackGo (hd :: rest) false v
          = hd :: getAvailableTrackGo rest true v from by
        simp [getAvailableTrackGo, ha]]
      have hp : (hd._type == TrackType.TrackAudio) = true := by simp [ha]
      rw [List.countP_cons, countP_getAvailableTrackGo_audio_true rest v]
      simp [hp]
    · by_cases hv : hd._type = TrackType.TrackVideo
      · cases v with
        | true => simpa [getAvailableTrackGo, ha, hv] using ih true
        | false =>
          rw [show getAvailableTrackGo (hd :: rest) false false
              = hd :: getAvailableTrackGo rest false true from by
            simp [getAvailableTrackGo, ha, hv]]
          have hb : (hd._type == TrackType.TrackAudio) = false := by simp [ha]
          rw [List.countP_cons]
          simpa [hb] using ih true
      · simpa [getAvailableTrackGo, ha, hv] using ih v

lemma countP_getAvailableTrackGo_video_true :
    ∀ (ts : List SdpTrack) (a : Bool),
      (getAvailableTrackGo ts a true).countP
        (fun u => u._type == TrackType.TrackVideo) = 0 := by
  intro ts
  induction ts with
  | nil => intro a; simp [getAvailableTrackGo]
  | cons hd rest ih =>
    intro a
    by_cases ha : hd._type = TrackType.TrackAudio
    · cases a with
      | true => simpa [getAvailableTrackGo, ha] using ih true
      | false =>
        rw [show getAvailableTrackGo (hd :: rest) false true
            = hd :: getAvailableTrackGo rest true true from by
          simp [getAvailableTrackGo, ha]]
        have hb : (hd._type == TrackType.TrackVideo) = false := by simp [ha]
        rw [List.countP_cons]
        simpa [hb] using ih true
    · by_cases hv : hd._type = TrackType.TrackVideo
      · simpa [getAvailableTrackGo, ha, hv] using ih a
      · simpa [getAvailableTrackGo, ha, hv] using ih a

lemma countP_getAvailableTrackGo_video :
    ∀ (ts : List SdpTrack) (a : Bool),
      (getAvailableTrackGo ts a false).countP
        (fun u => u._type == TrackType.TrackVideo) ≤ 1 := by
  intro ts
  induction ts with
  | nil => intro a; simp [getAvailableTrackGo]
  | cons hd rest ih =>
    intro a
    by_cases ha : hd._type = TrackType.TrackAudio
    · cases a with
      | true => simpa [getAvailableTrackGo, ha] using ih true
      | false =>
        rw [show getAvailableTrackGo (hd :: rest) false false
            = hd :: getAvailableTrackGo rest true false from by
          simp [getAvailableTrackGo, ha]]
        have hb : (hd._type == TrackType.TrackVideo) = false := by simp [ha]
        rw [List.countP_cons]
        simpa [hb] using ih true
    · by_cases hv : hd._type = TrackType.TrackVideo
      · rw [show getAvailableTrackGo (hd :: rest) a false
            = hd :: getAvailableTrackGo rest a true from by
          simp [getAvailableTrackGo, ha, hv]]
        have hp : (hd._type == TrackType.TrackVideo) = true := by simp [hv]
        rw [List.countP_cons, countP_getAvailableTrackGo_video_true rest a]
        simp [hp]
      · simpa [getAvailableTrackGo, ha, hv] using ih a

/-- C6: `getAvailableTrack` returns at most one audio and at most one
video track; its members are exactly the first audio track and the
first video track of the input, so a later track of the same kind is
never included; if a track of a kind exists, the first one is in the
result. -/
theorem get_available_track_first_per_kind (tv : List SdpTrack) :
    ((getAvailableTrack tv).countP (fun u => u._type == TrackType.TrackAudio) ≤ 1)
    ∧ ((getAvailableTrack tv).countP (fun u => u._type == TrackType.TrackVideo) ≤ 1)
    ∧ (∀ t, t ∈ getAvailableTrack tv ↔
        (t._type = TrackType.TrackAudio
          ∧ tv.find? (fun u => u._type == TrackType.TrackAudio) = some t)
        ∨ (t._type = TrackType.TrackVideo
          ∧ tv.find? (fun u => u._type == TrackType.TrackVideo) = some t))
    ∧ (∀ u, tv.find? (fun u2 => u2._type == TrackType.TrackAudio) = some u →
        u ∈ getAvailableTrack tv)
    ∧ (∀ u, tv.find? (fun u2 => u2._type == TrackType.TrackVideo) = some u →
        u ∈ getAvailableTrack tv) := by
  refine ⟨?_, ?_, ?_, ?_, ?_⟩
  · exact countP_getAvailableTrackGo_audio tv false
  · exact countP_getAvailableTrackGo_video tv false
  · intro t
    rw [getAvailableTrack, mem_getAvailableTrackGo]
    simp
  · intro u hu
    rw [getAvailableTrack, mem_getAvailableTrackGo]
    have := List.find?_some hu
    simp only [beq_iff_eq] at this
    exact Or.inl ⟨rfl, this, hu⟩
  · intro u hu
    rw [getAvailableTrack, mem_getAvailableTrackGo]
    have := List.find?_some hu
    simp only [beq_iff_eq] at this
    exact Or.inr ⟨rfl, this, hu⟩

/-- C6 witness: with two audio tracks after a title, the result contains
the first audio track. -/
theorem get_available_track_first_per_kind_witness :
    ([{ _type := TrackType.TrackTitle }, { _type := TrackType.TrackAudio, _pt := 8 },
        { _type := TrackType.TrackAudio, _pt := 9 }] : List SdpTrack).find?
      (fun u2 => u2._type == TrackType.TrackAudio)
      = some { _type := TrackType.TrackAudio, _pt := 8 }
    ∧ ({ _type := TrackType.TrackAudio, _pt := 8 } : SdpTrack)
      ∈ getAvailableTrack ([{ _type := TrackType.TrackTitle },
          { _type := TrackType.TrackAudio, _pt := 8 },
          { _type := TrackType.TrackAudio, _pt := 9 }] : List SdpTrack) :=
  ⟨by decide,
    (get_available_track_first_per_kind ([{ _type := TrackType.TrackTitle },
        { _type := TrackType.TrackAudio, _pt := 8 },
        { _type := TrackType.TrackAudio, _pt := 9 }] : List SdpTrack)).2.2.2.1
      { _type := TrackType.TrackAudio, _pt := 8 } (by decide)⟩

/-! ## C7: static payload-type lookup -/

/-- C7: `getPayloadType` returns `-1` when the codec has no table row,
and for an audio track also when the sample rate or channel count differ
from the row; otherwise it returns the row's payload-type number. -/
theorem payload_type_lookup (table : List PtEntry) (codec : Nat)
    (trackType : TrackType) (sampleRate channels : Int) :
    (table.find? (fun r => r.codec == codec) = none →
      getPayloadType table codec trackType sampleRate channels = -1)
    ∧ (∀ e, table.find? (fun r => r.codec == codec) = some e →
        ((trackType = TrackType.TrackAudio ∧
            (sampleRate ≠ e.clock_rate ∨ channels ≠ e.channel)) →
          getPayloadType table codec trackType sampleRate channels = -1)
        ∧ (¬(trackType = TrackType.TrackAudio ∧
            (sampleRate ≠ e.clock_rate ∨ channels ≠ e.channel)) →
          getPayloadType table codec trackType sampleRate channels = e.pt)) := by
  constructor
  · intro h
    unfold getPayloadType
    rw [h]
  · intro e he
    constructor
    · rintro ⟨h1, h2⟩
      unfold getPayloadType
      rw [he]
      simp [h1, h2]
    · intro hn
      unfold getPayloadType
      rw [he]
      by_cases h1 : trackType = TrackType.TrackAudio
      · have h2 : ¬(sampleRate ≠ e.clock_rate ∨ channels ≠ e.channel) :=
          fun hc => hn ⟨h1, hc⟩
        simp [h1, h2]
      · simp [h1]

/-- C7 witness: a PCMU-like audio row (payload type 0, 8000 Hz, 1
channel) is returned for a matching audio track. -/
theorem payload_type_lookup_witness :
    [PtEntry.mk 0 TrackType.TrackAudio 8000 1 7].find? (fun r => r.codec == 7)
        = some (PtEntry.mk 0 TrackType.TrackAudio 8000 1 7)
    ∧ getPayloadType [PtEntry.mk 0 TrackType.TrackAudio 8000 1 7] 7
        TrackType.TrackAudio 8000 1 = 0 :=
  ⟨by decide,
    ((payload_type_lookup [PtEntry.mk 0 TrackType.TrackAudio 8000 1 7] 7
        TrackType.TrackAudio 8000 1).2
      (PtEntry.mk 0 TrackType.TrackAudio 8000 1 7) (by decide)).2 (by decide)⟩

/-! ## C9: bounded retry of the socket-pair allocation -/

/-- C9: the free `makeSockPair` makes up to 3 attempts: it returns after
the first successful attempt without further attempts, and after a third
failed attempt the third exception propagates unchanged. -/
theorem make_sock_pair_bounded_retry (E : Type) (attempts : Nat → Except E Unit) :
    (attempts 0 = Except.ok () → makeSockPairRetry attempts = Except.ok 1)
    ∧ (∀ e0, attempts 0 = Except.error e0 → attempts 1 = Except.ok () →
        makeSockPairRetry attempts = Except.ok 2)
    ∧ (∀ e0 e1, attempts 0 = Except.error e0 → attempts 1 = Except.error e1 →
        attempts 2 = Except.ok () → makeSockPairRetry attempts = Except.ok 3)
    ∧ (∀ e0 e1 e2, attempts 0 = Except.error e0 → attempts 1 = Except.error e1 →
        attempts 2 = Except.error e2 →
        makeSockPairRetry attempts = Except.error e2) := by
  refine ⟨?_, ?_, ?_, ?_⟩ <;> intros <;>
    simp_all [makeSockPairRetry, sockPairLoop]

/-! ## C10: attribute serialization order -/

/-- The control entry remembered by the loop of `getAttrSdp` after
scanning a list of attributes, starting from a previously remembered
one: the last control entry encountered. -/
def lastCtrl : List (String × String) → Option (String × String) →
    Option (String × String)
  | [], ptr => ptr
  | pr :: rest, ptr =>
    if pr.1 = "control" then lastCtrl rest (some pr) else lastCtrl rest ptr

/-- The line emitted for the remembered control entry: always with a
colon, also for an empty value. -/
def emitCtrl : Option (String × String) → List String
  | none => []
  | some pr => ["a=" ++ pr.1 ++ ":" ++ pr.2]

lemma getAttrSdpGo_spec : ∀ (attr : List (String × String))
    (ptr : Option (String × String)),
    getAttrSdpGo attr ptr
      = (attr.filter (fun pr => !(pr.1 == "control"))).map fmtAttrLine
        ++ emitCtrl (lastCtrl attr ptr) := by
  intro attr
  induction attr with
  | nil =>
    intro ptr
    cases ptr <;> simp [getAttrSdpGo, lastCtrl, emitCtrl]
  | cons pr rest ih =>
    intro ptr
    by_cases h : pr.1 = "control"
    · simp [getAttrSdpGo, lastCtrl, h, ih]
    · simp [getAttrSdpGo, lastCtrl, h, ih]

lemma lastCtrl_getLast? : ∀ (attr : List (String × String))
    (ptr : Option (String × String)),
    lastCtrl attr ptr
      = ((attr.filter (fun pr => pr.1 == "control")).getLast?).or ptr := by
  intro attr
  induction attr with
  | nil => intro ptr; simp [lastCtrl]
  | cons pr rest ih =>
    intro ptr
    by_cases h : pr.1 = "control"
    · simp only [lastCtrl, if_pos h, List.filter_cons, h]
      rw [ih]
      simp only [beq_self_eq_true, if_pos rfl]
      cases hfl : rest.filter (fun pr => pr.1 == "control") with
      | nil => simp
      | cons q qs =>
        cases hlast : (q :: qs).getLast? with
        | none => simp at hlast
        | some x => simp [hlast, Option.or]
    · simp only [lastCtrl, if_neg h, List.filter_cons]
      rw [ih]
      have hb : (pr.1 == "control") = false := by simp [h]
      simp [hb]

/-- C10 counterexample: a control attribute with an empty value is
emitted as `a=control:` with a colon, not as `a=control` without one, so
the empty-value rule of the claim does not extend to the control
attribute. -/
theorem attr_empty_control_has_colon :
    getAttrSdp [("control", "")] = ["a=control:"]
    ∧ ("a=control" ∈ getAttrSdp [("control", "")] ↔ False)
    ∧ toStringLines
        { _type := TrackType.TrackAudio, _pt := 96, _attr := [("control", "")] } 0
      = ["m=audio 0 RTP/AVP 96", "a=control:"] := by
  refine ⟨by decide, by decide, ?_⟩
  decide

/-- C10 amended: attribute lines are emitted in multimap iteration order
with every non-control attribute formatted with no colon when its value
is empty and `a=name:value` otherwise, followed by the last control
entry encountered, which is always emitted last and always with a colon
(even for an empty value). -/
theorem attr_serialization_order (attr : List (String × String)) :
    getAttrSdp attr
      = (attr.filter (fun pr => !(pr.1 == "control"))).map fmtAttrLine
        ++ emitCtrl ((attr.filter (fun pr => pr.1 == "control")).getLast?) := by
  unfold getAttrSdp
  rw [getAttrSdpGo_spec, lastCtrl_getLast?]
  simp

/-- C9 witness: two failing attempts followed by a success yield a
result after 3 attempts. -/
theorem make_sock_pair_bounded_retry_witness :
    ((fun n => if n < 2 then Except.error "bind" else Except.ok ()) :
        Nat → Except String Unit) 0 = Except.error "bind"
    ∧ makeSockPairRetry
        ((fun n => if n < 2 then Except.error "bind" else Except.ok ()) :
          Nat → Except String Unit) = Except.ok 3 :=
  ⟨rfl,
    (make_sock_pair_bounded_retry String
        (fun n => if n < 2 then Except.error "bind" else Except.ok ())).2.2.1
      "bind" "bind" rfl rfl rfl⟩

end ZLM
